/-
  Verification of the subtitle track resolution and extraction engine of
  batch-subs-gemini (src/subtitle_utils.py and src/ffmpeg_utils.py)
  against its natural-language specification.

  The Python code is shallowly embedded: pure parsing/validation logic is
  translated directly; interactions with the operating system (running
  ffmpeg/ffprobe, reading files, checking file existence and size) are
  abstracted into explicit environment records that record the observable
  outcome of each interaction, and module-level mutable caches become
  explicit state passing.
-/
import Mathlib

namespace BatchSubs

/-! ## Python string primitives

Character-level models of the Python string operations the code uses.
Strings manipulated by this program (language tags, timestamps, ffmpeg
diagnostic lines) are ASCII, so ASCII models of `str.strip`, `str.lower`,
`str.isdigit` and `\w`/`\s`/`\d` character classes are faithful here. -/

/-- Python `str.strip()` whitespace class (ASCII part): space, \t, \n, \r, \x0b, \x0c. -/
def pyIsSpace (c : Char) : Bool :=
  c = ' ' || c = '\t' || c = '\n' || c = '\r' || c.toNat = 11 || c.toNat = 12

/-- `str.strip()` on a character list: drop leading and trailing whitespace. -/
def pyStripL (s : List Char) : List Char :=
  ((s.dropWhile pyIsSpace).reverse.dropWhile pyIsSpace).reverse

/-- `str.strip()` on a `String`. -/
def pyStrip (s : String) : String :=
  ⟨pyStripL s.toList⟩

/-- Python `str.split('\n')`: keeps empty fields, `"".split('\n') = ['']`. -/
def splitNL : List Char → List (List Char)
  | [] => [[]]
  | c :: rest =>
    if c = '\n' then [] :: splitNL rest
    else
      match splitNL rest with
      | l :: ls => (c :: l) :: ls
      | [] => [[c]]

/-- Python `str.isdigit()` (ASCII): nonempty and all characters are digits. -/
def pyIsDigit (s : List Char) : Bool :=
  !s.isEmpty && s.all Char.isDigit

/-- Match a fixed shape against a prefix of the input: `'D'` in the shape
stands for one decimal digit, any other shape character must appear
literally.  Used for the fixed-width pieces of the SRT timestamp regexes. -/
def matchShape : List Char → List Char → Bool
  | [], _ => true
  | _ :: _, [] => false
  | p :: ps, c :: cs => (if p = 'D' then c.isDigit else p = c) && matchShape ps cs

/-- The regex `re.match(r'\d{2}:\d{2}:\d{2},\d{3} --> \d{2}:\d{2}:\d{2},\d{3}', line)`
from `verify_subtitle_file`: a prefix match of the fixed-width timestamp range. -/
def timeRangeShape : List Char :=
  "DD:DD:DD,DDD --> DD:DD:DD,DDD".toList

def matchTimeRange (s : List Char) : Bool :=
  matchShape timeRangeShape s

/-! ## SubtitleFileValidator: `verify_subtitle_file` (src/subtitle_utils.py:425-459)

The file read `open(srt_file).read()` is abstracted as an `Except Unit String`
input: `.error` models any read exception (missing file, undecodable bytes),
`.ok content` a successful read of the whole file. -/

/-- `content.strip().split('\n')` (src/subtitle_utils.py:439). -/
def verifyLines (content : String) : List (List Char) :=
  splitNL (pyStripL content.toList)

/-- `lines[0]` of the stripped content (src/subtitle_utils.py:447). -/
def line0 (content : String) : List Char :=
  (verifyLines content).headD []

/-- `lines[1]` of the stripped content (src/subtitle_utils.py:452). -/
def line1 (content : String) : List Char :=
  ((verifyLines content).drop 1).headD []

/-- Embedding of `verify_subtitle_file`.  Returns `(validity, line count)`. -/
def verify_subtitle_file (readResult : Except Unit String) : Bool × Nat :=
  match readResult with
  | .error _ => (false, 0)
  | .ok content =>
    let lineCount := (verifyLines content).length
    if lineCount < 4 then (false, lineCount)
    else if !pyIsDigit (pyStripL (line0 content)) then (false, lineCount)
    else if !matchTimeRange (pyStripL (line1 content)) then (false, lineCount)
    else (true, lineCount)

/-! ## Data model: SubtitleTrack

The dicts built by `list_subtitle_tracks` and consumed by
`find_best_subtitle_track` (src/subtitle_utils.py:14-149). -/

structure SubtitleTrack where
  index : Nat
  stream_index : Option Nat
  language : String
  codec : String
  title : String
deriving DecidableEq, Repr

/-- ASCII model of Python `str.lower()`. -/
def asciiLower (c : Char) : Char :=
  if 'A' ≤ c && c ≤ 'Z' then Char.ofNat (c.toNat + 32) else c

def strLower (s : String) : String :=
  ⟨s.toList.map asciiLower⟩

/-- Substring containment, Python `sub in s`. -/
def strContainsSub (s sub : String) : Bool :=
  (List.range (s.toList.length + 1)).any
    (fun i => ((s.toList.drop i).take sub.toList.length) = sub.toList)

/-- `s.startswith(pre)` on lists. -/
def listStartsWith (pre s : List Char) : Bool :=
  s.take pre.length = pre

/-- `s.endswith(suf)` on lists. -/
def listEndsWith (suf s : List Char) : Bool :=
  listStartsWith suf.reverse s.reverse

/-! ## TrackSelector: `find_best_subtitle_track` (src/subtitle_utils.py:151-184) -/

/-- `track['language'].lower() == lang.lower()`. -/
def langMatches (lang : String) (t : SubtitleTrack) : Bool :=
  strLower t.language = strLower lang

/-- The English-title heuristic of src/subtitle_utils.py:176-180:
`'english' in title or ' eng' in title or title.endswith('eng') or
title.startswith('eng')` on the lowered title. -/
def englishTitle (t : SubtitleTrack) : Bool :=
  let title := strLower t.title
  strContainsSub title "english" || strContainsSub title " eng" ||
    listEndsWith "eng".toList title.toList || listStartsWith "eng".toList title.toList

/-- The nested preference loop of src/subtitle_utils.py:169-173: for each
preferred language in order, scan the tracks in order, return the first
case-insensitive language match. -/
def findPreferredTrack (tracks : List SubtitleTrack) :
    List String → Option SubtitleTrack
  | [] => none
  | lang :: rest =>
    match tracks.find? (langMatches lang) with
    | some t => some t
    | none => findPreferredTrack tracks rest

/-- Embedding of `find_best_subtitle_track(tracks, preferred_languages)`.
`none` for `preferred_languages` is Python's `None` default. -/
def find_best_subtitle_track (tracks : List SubtitleTrack)
    (preferredLanguages : Option (List String)) : Option SubtitleTrack :=
  match tracks with
  | [] => none
  | t0 :: _ =>
    let prefs := preferredLanguages.getD ["eng", "en"]
    match findPreferredTrack tracks prefs with
    | some t => some t
    | none =>
      match tracks.find? englishTitle with
      | some t => some t
      | none => some t0

/-- Spec-side selector, written from the claim's words: pick the
earliest-ranked preferred language that has any match, and return the first
track (in original order) matching it; failing that, the first track with an
English-indicating title; failing that, the first track; `none` only on an
empty list. -/
def selectBestSpec (tracks : List SubtitleTrack) (prefs : List String) :
    Option SubtitleTrack :=
  match tracks with
  | [] => none
  | t0 :: _ =>
    match prefs.find? (fun lang => tracks.any (langMatches lang)) with
    | some lang => tracks.find? (langMatches lang)
    | none =>
      match tracks.find? englishTitle with
      | some t => some t
      | none => some t0

/-! ## TrackLister (src/subtitle_utils.py:14-149)

The two probing strategies are embedded as `Except Unit _` computations
(`.error` models the strategy raising) over an environment describing the
observable outcomes of the external-tool interactions. -/

/-- One stream object of the ffprobe JSON document (`streams` array entry):
the fields the parser at src/subtitle_utils.py:79-88 reads, each optional
because the code accesses them with `.get` defaults. -/
structure ProbeStream where
  codec_type : Option String
  index : Option Nat
  language : Option String
  codec_name : Option String
  title : Option String
deriving DecidableEq, Repr

/-- The track built from the stream at enumeration position `i`
(src/subtitle_utils.py:81-87): `language` and `codec` take their `.get`
defaults `"und"` / `"unknown"` when the JSON fields are absent. -/
def probeTrackOf (i : Nat) (s : ProbeStream) : SubtitleTrack :=
  { index := i
    stream_index := s.index
    language := s.language.getD "und"
    codec := s.codec_name.getD "unknown"
    title := s.title.getD "" }

/-- The parse loop of `_get_subtitle_tracks_with_ffprobe`
(src/subtitle_utils.py:78-91): enumerate all streams, keep those with
`codec_type == "subtitle"`, and build a track whose `index` is the
enumeration position. -/
def ffprobeParseTracks (streams : List ProbeStream) : List SubtitleTrack :=
  streams.enum.filterMap fun p =>
    if p.2.codec_type = some "subtitle" then some (probeTrackOf p.1 p.2)
    else none

/-- Maximal munch of a character class: longest prefix satisfying `p`, and
the rest.  The regexes embedded below only ever place a `+`/`*` repetition
before a character the class cannot match, so committed maximal munch agrees
with Python's backtracking regex engine on them. -/
def munch (p : Char → Bool) : List Char → List Char × List Char
  | [] => ([], [])
  | c :: cs =>
    if p c then
      let (t, r) := munch p cs
      (c :: t, r)
    else ([], c :: cs)

/-- Strip an exact literal prefix, or fail. -/
def expectLit : List Char → List Char → Option (List Char)
  | [], s => some s
  | _ :: _, [] => none
  | l :: ls, c :: cs => if l = c then expectLit ls cs else none

/-- Python `\w` (ASCII): letters, digits, underscore. -/
def isWordChar (c : Char) : Bool :=
  c.isAlphanum || c = '_'

/-- One attempted match of the heuristic-scan regex
`Stream\s+#\d+:(\d+)(?:\((\w+)\))?\s*:\s*Subtitle:\s*(\w+)`
(src/subtitle_utils.py:125) at the head of the input.  Returns the three
captures (streamIndex digits, language or `""` for an absent group, codec)
and the unconsumed rest. -/
def matchSubtitleLineAt (s : List Char) :
    Option ((String × String × String) × List Char) := do
  let s ← expectLit "Stream".toList s
  let (sp, s) := munch pyIsSpace s
  if sp.isEmpty then none else
  let s ← expectLit ['#'] s
  let (d, s) := munch Char.isDigit s
  if d.isEmpty then none else
  let s ← expectLit [':'] s
  let (si, s) := munch Char.isDigit s
  if si.isEmpty then none else
  -- optional group (?:\((\w+)\))?
  let (lang, s) :=
    match s with
    | '(' :: rest =>
      let (w, r) := munch isWordChar rest
      if w.isEmpty then ("", s)
      else
        match r with
        | ')' :: r2 => (⟨w⟩, r2)
        | _ => ("", s)
    | _ => (("" : String), s)
  let (_, s) := munch pyIsSpace s
  let s ← expectLit [':'] s
  let (_, s) := munch pyIsSpace s
  let s ← expectLit "Subtitle:".toList s
  let (_, s) := munch pyIsSpace s
  let (cod, s) := munch isWordChar s
  if cod.isEmpty then none else
  some ((⟨si⟩, lang, ⟨cod⟩), s)

/-- `re.findall` scan loop: try a match at each position, emit captures and
continue past each match.  Every successful match consumes at least one
character, so fuel equal to the input length suffices. -/
def findallAux {α : Type}
    (matchAt : List Char → Option (α × List Char)) :
    Nat → List Char → List α
  | 0, _ => []
  | _ + 1, [] => []
  | fuel + 1, c :: cs =>
    match matchAt (c :: cs) with
    | some (m, rest) => m :: findallAux matchAt fuel rest
    | none => findallAux matchAt fuel cs

def findallSubtitleLines (s : List Char) : List (String × String × String) :=
  findallAux matchSubtitleLineAt s.length s

/-- The track built from the regex match at enumeration position `i`
(src/subtitle_utils.py:128-142): an empty language capture defaults to
`"und"`; `title` is always empty. -/
def scanTrackOf (i : Nat) (m : String × String × String) : SubtitleTrack :=
  { index := i
    stream_index := some m.1.toNat!
    language := if m.2.1 = "" then "und" else m.2.1
    codec := m.2.2
    title := "" }

/-- The parse loop of `_get_subtitle_tracks_with_ffmpeg`
(src/subtitle_utils.py:128-142): enumerate the regex matches. -/
def ffmpegParseTracks (ms : List (String × String × String)) :
    List SubtitleTrack :=
  ms.enum.map fun p => scanTrackOf p.1 p.2

/-- Environment for one `list_subtitle_tracks` call: the observable outcome
of each external interaction.  `integrityProbe`/`integrityScan` are the two
`check_ffmpeg_integrity()` calls (src/subtitle_utils.py:49,104), which may
differ because downloads can happen in between; `probeOk, probeOut` the
`run_ffprobe_command` result; `probeParse` the `json.loads` outcome on
`probeOut` (`none` = `JSONDecodeError`, `some streams` the document's
`streams` array); `scanText` the text of the `ffmpeg -i` diagnostic dump. -/
structure ListEnv where
  integrityProbe : Bool
  probeOk : Bool
  probeOut : String
  probeParse : Option (List ProbeStream)
  integrityScan : Bool
  scanText : String

/-- `_get_subtitle_tracks_with_ffprobe` (src/subtitle_utils.py:46-98).
`.error` models the function raising. -/
def tracksWithFFprobe (env : ListEnv) : Except Unit (List SubtitleTrack) :=
  if !env.integrityProbe then .error ()
  else if !env.probeOk then .error ()
  else if pyStrip env.probeOut = "" then .ok []
  else
    match env.probeParse with
    | none => .error ()
    | some streams => .ok (ffprobeParseTracks streams)

/-- `_get_subtitle_tracks_with_ffmpeg` (src/subtitle_utils.py:101-149).
`run_ffmpeg_command` never raises, so the only raise is the failed
integrity check. -/
def tracksWithFFmpeg (env : ListEnv) : Except Unit (List SubtitleTrack) :=
  if !env.integrityScan then .error ()
  else .ok (ffmpegParseTracks (findallSubtitleLines env.scanText.toList))

/-- The assumed default track of src/subtitle_utils.py:43. -/
def defaultAssumedTrack : SubtitleTrack :=
  { index := 0, stream_index := some 0, language := "und", codec := "unknown"
    title := "Auto-detected subtitle" }

/-- Embedding of `list_subtitle_tracks` (src/subtitle_utils.py:14-43). -/
def list_subtitle_tracks (env : ListEnv) : List SubtitleTrack :=
  match tracksWithFFprobe env with
  | .ok ts => ts
  | .error _ =>
    match tracksWithFFmpeg env with
    | .ok ts => ts
    | .error _ => [defaultAssumedTrack]

/-! ## SubtitleExtractor (src/subtitle_utils.py:186-376)

Each strategy is embedded over an environment giving the observable outcome
of each `run_ffmpeg_command` invocation together with the state of the
destination file right after it (existence, size, and the content a
subsequent read would return).  Besides the boolean outcome, each embedded
strategy returns the trace of extraction commands it ran and files it
deleted, so that "skips…", "still attempted", "deletes…" claims are
statable. -/

/-- An observable action of the extraction engine. -/
inductive Action where
  | runTool (cmd : List String)
  | removeFile (path : String)
deriving DecidableEq, Repr

/-- Outcome of one extraction `run_ffmpeg_command` call plus the state of
the destination file immediately afterwards. `content` is what
`open(output_srt).read(…)` would return. -/
structure RunFx where
  ok : Bool
  outExists : Bool
  outSize : Nat
  content : String

/-- Environment of the whole extractor.  `integrityAuto`/`integritySimple`/
`integrityForce` are the `check_ffmpeg_integrity()` results at the head of
each strategy; `listing` feeds the track-selection path of Strategy A;
`forceStderr` is the `ffmpeg -i` dump re-probed by Strategy C; `run` maps
each extraction command to its outcome. -/
structure ExtractEnv where
  integrityAuto : Bool
  integritySimple : Bool
  integrityForce : Bool
  listing : ListEnv
  forceStderr : String
  run : List String → RunFx

/-- The `-map 0:s:N` extraction command of src/subtitle_utils.py:238-245
(also 276-283 with `N = 0`). -/
def autoCmd (videoFile outputSrt : String) (trackIndex : Nat) : List String :=
  ["ffmpeg", "-y", "-i", videoFile, "-map", "0:s:" ++ toString trackIndex,
   "-c:s", "srt", outputSrt]

/-- The `-map 0:<absolute>` brute-force command of src/subtitle_utils.py:342-349.
The stream index is kept as the captured digit string, exactly as the code
interpolates it. -/
def forceCmd (videoFile outputSrt : String) (streamIdx : String) : List String :=
  ["ffmpeg", "-y", "-i", videoFile, "-map", "0:" ++ streamIdx, "-c:s", "srt",
   outputSrt]

/-- Embedding of `extract_subtitle_auto` (src/subtitle_utils.py:214-264). -/
def extract_subtitle_auto (env : ExtractEnv) (videoFile outputSrt : String)
    (trackIndex : Option Nat) (preferredLanguages : Option (List String)) :
    Bool × List Action :=
  if !env.integrityAuto then (false, [])
  else
    let resolved : Option Nat :=
      match trackIndex with
      | some i => some i
      | none =>
        let tracks := list_subtitle_tracks env.listing
        if tracks.isEmpty then none
        else
          match find_best_subtitle_track tracks preferredLanguages with
          | none => none
          | some t => some t.index
    match resolved with
    | none => (false, [])
    | some i =>
      let cmd := autoCmd videoFile outputSrt i
      let fx := env.run cmd
      (fx.ok && fx.outExists && decide (0 < fx.outSize), [.runTool cmd])

/-- Embedding of `extract_subtitle_simple` (src/subtitle_utils.py:267-303). -/
def extract_subtitle_simple (env : ExtractEnv) (videoFile outputSrt : String) :
    Bool × List Action :=
  if !env.integritySimple then (false, [])
  else
    let cmd := autoCmd videoFile outputSrt 0
    let fx := env.run cmd
    (fx.ok && fx.outExists && decide (0 < fx.outSize), [.runTool cmd])

/-- One attempted match of the brute-force probe regex
`Stream\s+#\d+:(\d+)` (src/subtitle_utils.py:330) at the head of the input:
the capture is the digit string of the absolute stream index. -/
def matchStreamAt (s : List Char) : Option (String × List Char) := do
  let s ← expectLit "Stream".toList s
  let (sp, s) := munch pyIsSpace s
  if sp.isEmpty then none else
  let s ← expectLit ['#'] s
  let (d, s) := munch Char.isDigit s
  if d.isEmpty then none else
  let s ← expectLit [':'] s
  let (si, s) := munch Char.isDigit s
  if si.isEmpty then none else
  some ((⟨si⟩ : String), s)

def findallStreams (s : List Char) : List String :=
  findallAux matchStreamAt s.length s

/-- One attempted match of the content-sniff regex
`\d+\s+\d{2}:\d{2}:\d{2},\d{3}` (src/subtitle_utils.py:359) at the head of
the input. -/
def matchTimestampAt (s : List Char) : Bool :=
  let (d, s) := munch Char.isDigit s
  if d.isEmpty then false else
  let (sp, s) := munch pyIsSpace s
  if sp.isEmpty then false else
  matchShape "DD:DD:DD,DDD".toList s

/-- `re.search` of the content-sniff regex: a match at some position. -/
def searchTimestamp (s : List Char) : Bool :=
  (List.range s.length).any (fun i => matchTimestampAt (s.drop i))

/-- Spec-side pattern, from the claim's words: a full SRT-shaped timestamp
RANGE line `\d+\s+HH:MM:SS,mmm --> HH:MM:SS,mmm`, searched anywhere. -/
def matchTimestampRangeAt (s : List Char) : Bool :=
  let (d, s) := munch Char.isDigit s
  if d.isEmpty then false else
  let (sp, s) := munch pyIsSpace s
  if sp.isEmpty then false else
  matchShape timeRangeShape s

def searchTimestampRangeSpec (s : List Char) : Bool :=
  (List.range s.length).any (fun i => matchTimestampRangeAt (s.drop i))

/-- The generic success criteria of one brute-force attempt
(src/subtitle_utils.py:355): tool success, file exists, size positive. -/
def forcePassesGeneric (env : ExtractEnv) (s : String)
    (videoFile outputSrt : String) : Bool :=
  let fx := env.run (forceCmd videoFile outputSrt s)
  fx.ok && fx.outExists && decide (0 < fx.outSize)

/-- The additional content sniff of one brute-force attempt
(src/subtitle_utils.py:357-359): the first 200 characters read from the
output contain the timestamp pattern. -/
def forcePassesContent (env : ExtractEnv) (s : String)
    (videoFile outputSrt : String) : Bool :=
  searchTimestamp ((env.run (forceCmd videoFile outputSrt s)).content.toList.take 200)

/-- The per-stream loop of `extract_subtitle_force`
(src/subtitle_utils.py:338-369). -/
def forceLoop (env : ExtractEnv) (videoFile outputSrt : String) :
    List String → Bool × List Action
  | [] => (false, [])
  | s :: rest =>
    let act : Action := .runTool (forceCmd videoFile outputSrt s)
    if forcePassesGeneric env s videoFile outputSrt then
      if forcePassesContent env s videoFile outputSrt then (true, [act])
      else
        let (b, tr) := forceLoop env videoFile outputSrt rest
        (b, act :: .removeFile outputSrt :: tr)
    else
      let (b, tr) := forceLoop env videoFile outputSrt rest
      (b, act :: tr)

/-- Embedding of `extract_subtitle_force` (src/subtitle_utils.py:306-376). -/
def extract_subtitle_force (env : ExtractEnv) (videoFile outputSrt : String) :
    Bool × List Action :=
  if !env.integrityForce then (false, [])
  else
    let streams := findallStreams env.forceStderr.toList
    if streams.isEmpty then (false, [])
    else forceLoop env videoFile outputSrt streams

/-- Embedding of the orchestrator `extract_subtitle`
(src/subtitle_utils.py:186-211).  The Python condition
`if track_index is not None or extract_subtitle_auto(...)` short-circuits:
with a provided track index the function returns `True` without calling any
strategy. -/
def extract_subtitle (env : ExtractEnv) (videoFile outputSrt : String)
    (trackIndex : Option Nat) (preferredLanguages : Option (List String)) :
    Bool × List Action :=
  if trackIndex.isSome then (true, [])
  else
    let (b1, t1) := extract_subtitle_auto env videoFile outputSrt none
      preferredLanguages
    if b1 then (true, t1)
    else
      let (b2, t2) := extract_subtitle_simple env videoFile outputSrt
      if b2 then (true, t1 ++ t2)
      else
        let (b3, t3) := extract_subtitle_force env videoFile outputSrt
        (b3, t1 ++ t2 ++ t3)

/-- Spec-side helper for the brute-force loop: the prefix of the stream list
up to and including the first one passing both checks (the whole list when
none passes). -/
def untilFirstPass (env : ExtractEnv) (videoFile outputSrt : String) :
    List String → List String
  | [] => []
  | s :: rest =>
    if forcePassesGeneric env s videoFile outputSrt &&
        forcePassesContent env s videoFile outputSrt then [s]
    else s :: untilFirstPass env videoFile outputSrt rest

/-- Spec-side trace of one brute-force attempt: run the mapping command,
and delete the output when the generic criteria pass but the content sniff
fails. -/
def forceActionsOf (env : ExtractEnv) (videoFile outputSrt : String)
    (s : String) : List Action :=
  Action.runTool (forceCmd videoFile outputSrt s) ::
    (if forcePassesGeneric env s videoFile outputSrt &&
        !forcePassesContent env s videoFile outputSrt then
      [Action.removeFile outputSrt]
    else [])

/-! ## CommandRunner: `run_ffmpeg_command` / `run_ffprobe_command`
(src/ffmpeg_utils.py:425-505)

`subprocess.run` is abstracted as an execution oracle mapping the final
argv (and the timeout) to one of: completion with a return code and
captured stdout/stderr, a `TimeoutExpired`, or any other exception. -/

inductive ProcFx where
  | completed (returncode : Int) (stdout stderr : String)
  | timedOut
  | raised (msg : String)

/-- Embedding of `run_ffmpeg_command(cmd, timeout)`.  `resolve` is the
result of `get_ffmpeg_executable()`; `exec` the `subprocess.run` oracle. -/
def run_ffmpeg_command (resolve : Option String)
    (exec : Option Nat → List String → ProcFx) (cmd : List String)
    (timeout : Option Nat) : Bool × String :=
  match resolve with
  | none => (false, "ffmpeg을 찾을 수 없습니다.")
  | some p =>
    match cmd with
    | [] => (false, "잘못된 명령 형식입니다.")
    | _ :: rest =>
      match exec timeout (p :: rest) with
      | .completed rc out err => if rc = 0 then (true, out) else (false, err)
      | .timedOut => (false, "명령 실행 시간 초과")
      | .raised msg => (false, msg)

/-- Embedding of `run_ffprobe_command(cmd, timeout)`; identical to
`run_ffmpeg_command` except for the resolver used and the not-found
message. -/
def run_ffprobe_command (resolve : Option String)
    (exec : Option Nat → List String → ProcFx) (cmd : List String)
    (timeout : Option Nat) : Bool × String :=
  match resolve with
  | none => (false, "ffprobe를 찾을 수 없습니다.")
  | some p =>
    match cmd with
    | [] => (false, "잘못된 명령 형식입니다.")
    | _ :: rest =>
      match exec timeout (p :: rest) with
      | .completed rc out err => if rc = 0 then (true, out) else (false, err)
      | .timedOut => (false, "명령 실행 시간 초과")
      | .raised msg => (false, msg)

/-! ## ToolProvisioner: `get_ffmpeg_executable` / `get_ffprobe_executable`
(src/ffmpeg_utils.py:34-153, 218-423)

The only path operations the resolution code performs are
`os.path.dirname` and `os.path.join(dir, name)`, so a resolved path is
modelled as a directory/basename pair.  The module-level caches
`_ffmpeg_path_cache`, `_ffprobe_path_cache`, `_ffmpeg_verified` become an
explicit state record, and the filesystem/network is an environment:
`findFFmpeg` is the first search candidate passing `os.path.isfile`,
`os.access` and `verify_ffmpeg` (src/ffmpeg_utils.py:78-87); `downloadDir`
the install directory when `download_ffmpeg()` succeeds; `probeOk` whether
a given ffprobe candidate passes `os.path.isfile`, `os.access` and
`verify_ffprobe`. -/

structure FPath where
  dir : String
  base : String
deriving DecidableEq, Repr

structure FFState where
  ffmpegCache : Option FPath
  ffprobeCache : Option FPath
  verified : Bool
deriving DecidableEq, Repr

structure FFEnv where
  findFFmpeg : Option FPath
  downloadDir : Option String
  probeOk : FPath → Bool
  ffmpegName : String
  ffprobeName : String
  /-- Models the outer `except` of `get_ffmpeg_executable`
  (src/ffmpeg_utils.py:99-101): an exception during the search returns
  `None` without touching the caches. -/
  searchRaises : Bool

/-- Embedding of `download_ffmpeg()` (src/ffmpeg_utils.py:218-423): on
success every platform variant installs both binaries into one directory,
sets both caches to those paths, sets the verification flag, and returns
the ffmpeg path; on failure it returns `None` leaving the state alone. -/
def download_ffmpeg (env : FFEnv) (st : FFState) : Option FPath × FFState :=
  match env.downloadDir with
  | some d =>
    (some ⟨d, env.ffmpegName⟩,
     { ffmpegCache := some ⟨d, env.ffmpegName⟩
       ffprobeCache := some ⟨d, env.ffprobeName⟩
       verified := true })
  | none => (none, st)

/-- The search-then-download body of `get_ffmpeg_executable`
(src/ffmpeg_utils.py:47-97), run when the cache fast path does not apply. -/
def get_ffmpeg_search (env : FFEnv) (st : FFState) : Option FPath × FFState :=
  if env.searchRaises then (none, st)
  else
    match env.findFFmpeg with
    | some p => (some p, { st with ffmpegCache := some p, verified := true })
    | none =>
      match download_ffmpeg env st with
      | (some p, st') => (some p, { st' with ffmpegCache := some p })
      | (none, st') => (none, { st' with ffmpegCache := none })

/-- Embedding of `get_ffmpeg_executable()` (src/ffmpeg_utils.py:39-101). -/
def get_ffmpeg_executable (env : FFEnv) (st : FFState) :
    Option FPath × FFState :=
  match st.ffmpegCache with
  | some p =>
    if st.verified then (some p, st)
    else get_ffmpeg_search env st
  | none => get_ffmpeg_search env st

/-- The download-then-retry tail of `get_ffprobe_executable`
(src/ffmpeg_utils.py:134-149).  `nameBound` records whether the local
`executable_name` of src/ffmpeg_utils.py:118-124 was bound by the first
attempt: when it was not (the first `get_ffmpeg_executable()` returned
`None`), the reference at line 143 raises `NameError`, which the outer
handler turns into a `None` return with the state as already mutated. -/
def get_ffprobe_retry (envB : FFEnv) (st1 : FFState) (nameBound : Bool) :
    Option FPath × FFState :=
  match st1.ffprobeCache with
  | some _ => (st1.ffprobeCache, st1)
  | none =>
    let st2 := (download_ffmpeg envB st1).2
    let r2 := (get_ffmpeg_executable envB st2).1
    let st3 := (get_ffmpeg_executable envB st2).2
    match r2 with
    | some p2 =>
      if nameBound then
        if envB.probeOk ⟨p2.dir, envB.ffprobeName⟩ then
          (some ⟨p2.dir, envB.ffprobeName⟩,
           { st3 with ffprobeCache := some ⟨p2.dir, envB.ffprobeName⟩ })
        else (st3.ffprobeCache, st3)
      else (none, st3)
    | none => (st3.ffprobeCache, st3)

/-- The body of `get_ffprobe_executable` past the cache fast path
(src/ffmpeg_utils.py:111-149): resolve ffmpeg, look for ffprobe in the
same directory, and fall back to the download-retry tail. -/
def get_ffprobe_search (envA envB : FFEnv) (st : FFState) :
    Option FPath × FFState :=
  let r1 := (get_ffmpeg_executable envA st).1
  let st1 := (get_ffmpeg_executable envA st).2
  match r1 with
  | some p =>
    if envA.probeOk ⟨p.dir, envA.ffprobeName⟩ then
      (some ⟨p.dir, envA.ffprobeName⟩,
       { st1 with ffprobeCache := some ⟨p.dir, envA.ffprobeName⟩ })
    else get_ffprobe_retry envB st1 true
  | none => get_ffprobe_retry envB st1 false

/-- Embedding of `get_ffprobe_executable()` (src/ffmpeg_utils.py:103-153).
`envA` covers the first resolution attempt, `envB` the retry after the
explicit download (the filesystem may have changed in between). -/
def get_ffprobe_executable (envA envB : FFEnv) (st : FFState) :
    Option FPath × FFState :=
  match st.ffprobeCache with
  | some p =>
    if st.verified then (some p, st)
    else get_ffprobe_search envA envB st
  | none => get_ffprobe_search envA envB st

/-! ## Concrete environments used by witnesses and counterexamples -/

/-- A listing environment in which both probing strategies raise (both
integrity checks fail, as after an unrecoverable tool loss). -/
def envBothFail : ListEnv :=
  { integrityProbe := false, probeOk := true, probeOut := "", probeParse := none
    integrityScan := false, scanText := "" }

/-- A listing environment for a container with streams but no subtitle
stream: the structured probe succeeds and parses to one audio stream. -/
def envZeroSubs : ListEnv :=
  { integrityProbe := true, probeOk := true
    probeOut := "x", probeParse := some [⟨some "audio", some 0, none, none, none⟩]
    integrityScan := true, scanText := "" }

/-- An extraction environment in which every tool invocation succeeds and
leaves a three-byte output file. -/
def envRunW : ExtractEnv :=
  { integrityAuto := true, integritySimple := true, integrityForce := true
    listing := envZeroSubs, forceStderr := ""
    run := fun _ => ⟨true, true, 3, "x"⟩ }

/-- The Strategy-C counterexample environment: the re-probe reports one
stream, mapping it succeeds with a non-empty output whose first bytes are
`"1 00:00:01,000"` — a bare index+timestamp with no ` --> ` range. -/
def envForceCE : ExtractEnv :=
  { integrityAuto := true, integritySimple := true, integrityForce := true
    listing := envBothFail
    forceStderr := "  Stream #0:0: Video: h264"
    run := fun _ => ⟨true, true, 10, "1 00:00:01,000"⟩ }

/-- A resolution environment in which the ffmpeg search succeeds at
`/opt/bin/ffmpeg` and every ffprobe candidate verifies. -/
def envResolveW : FFEnv :=
  { findFFmpeg := some ⟨"/opt/bin", "ffmpeg"⟩, downloadDir := none
    probeOk := fun _ => true, ffmpegName := "ffmpeg", ffprobeName := "ffprobe"
    searchRaises := false }

/-- The cache-state invariant maintained by the tool-resolution layer:
whenever an ffprobe path is cached, the shared verification flag is set and
an ffmpeg path in the same directory is cached. -/
def FFInv (st : FFState) : Prop :=
  ∀ q, st.ffprobeCache = some q →
    st.verified = true ∧ ∃ p, st.ffmpegCache = some p ∧ p.dir = q.dir

/-! # Theorems -/

/-- C3: the claim says `verify` on the minimal well-formed single-cue SRT
text `"1\n00:00:01,000 --> 00:00:02,000\nHello\n\n"` returns `(true, 4)`.
The code first runs `content.strip()`, which removes the trailing blank
separator, leaving 3 lines, so it returns `(false, 3)`: the inline comment
at src/subtitle_utils.py:442 counts the blank separator among the required
4 lines, so stripping it first is a slip in the code. -/
theorem verify_minimal_single_cue :
    verify_subtitle_file (.ok "1\n00:00:01,000 --> 00:00:02,000\nHello\n\n") =
      (false, 3) := by decide

/-- C4 counterexample: a file whose first line is `"0"` — not a positive
integer — nevertheless verifies as `(true, 4)`, because the code only
checks `str.isdigit()`, which accepts `"0"`.  The claim as stated demands
`(false, 4)` here. -/
theorem verify_accepts_zero_index :
    verify_subtitle_file (.ok "0\n00:00:01,000 --> 00:00:02,000\nHello\nWorld") =
      (true, 4) := by decide

/-- C4 amended: `verify` returns `(false, lineCount)` whenever the stripped
content has fewer than 4 lines, whenever the first line (stripped) is not a
nonempty all-digit string (`"0"` is accepted: the check is `isdigit`, not
positivity), or whenever the second line (stripped) does not start with the
`HH:MM:SS,mmm --> HH:MM:SS,mmm` pattern; a read exception yields
`(false, 0)`. -/
theorem verify_subtitle_file_checks (content : String) :
    ((verifyLines content).length < 4 →
      verify_subtitle_file (.ok content) = (false, (verifyLines content).length)) ∧
    (pyIsDigit (pyStripL (line0 content)) = false →
      verify_subtitle_file (.ok content) = (false, (verifyLines content).length)) ∧
    (matchTimeRange (pyStripL (line1 content)) = false →
      verify_subtitle_file (.ok content) = (false, (verifyLines content).length)) ∧
    verify_subtitle_file (.error ()) = (false, 0) := by
  refine ⟨fun h => ?_, fun h => ?_, fun h => ?_, rfl⟩
  · simp only [verify_subtitle_file]
    rw [if_pos h]
  · simp only [verify_subtitle_file]
    by_cases h4 : (verifyLines content).length < 4
    · rw [if_pos h4]
    · rw [if_neg h4, if_pos (by simp [h])]
  · simp only [verify_subtitle_file]
    by_cases h4 : (verifyLines content).length < 4
    · rw [if_pos h4]
    · rw [if_neg h4]
      by_cases hd : pyIsDigit (pyStripL (line0 content))
      · rw [if_neg (by simp [hd]), if_pos (by simp [h])]
      · rw [if_pos (by simp [hd])]

/-- C4 witness: the amended theorem applied to the one-line file `"ab"`. -/
theorem verify_subtitle_file_checks_witness :
    verify_subtitle_file (.ok "ab") = (false, 1) :=
  (verify_subtitle_file_checks "ab").1 (by decide)

/-- Any stream list with no `codec_type == "subtitle"` entry parses to an
empty track list. -/
theorem ffprobeParseTracks_eq_nil (streams : List ProbeStream)
    (h : ∀ s ∈ streams, s.codec_type ≠ some "subtitle") :
    ffprobeParseTracks streams = [] := by
  unfold ffprobeParseTracks
  rw [List.filterMap_eq_nil_iff]
  rintro ⟨i, s⟩ ha
  obtain ⟨-, hlt, hidx⟩ := List.mem_enumFrom ha
  have hs : s ∈ streams := by rw [hidx]; exact List.getElem_mem _
  simp [h s hs]

/-- C2 counterexample: in an environment where both the structured probe and
the heuristic scan fail (both integrity checks fail),
`list_subtitle_tracks` returns the single assumed default track, not the
empty sequence the claim demands. -/
theorem list_tracks_total_failure_counterexample :
    tracksWithFFprobe envBothFail = .error () ∧
    tracksWithFFmpeg envBothFail = .error () ∧
    list_subtitle_tracks envBothFail = [defaultAssumedTrack] ∧
    list_subtitle_tracks envBothFail ≠ [] :=
  ⟨rfl, rfl, rfl, by decide⟩

/-- C2 amended: `list_subtitle_tracks` is total (never raises), and when
both strategies fail it returns the single assumed default track rather
than an empty sequence; a successfully probed container with zero subtitle
streams (blank probe output, or a parsed stream list with no subtitle
entry) yields the empty sequence, not a failure signal. -/
theorem list_subtitle_tracks_fallback (env : ListEnv) :
    (tracksWithFFprobe env = .error () → tracksWithFFmpeg env = .error () →
      list_subtitle_tracks env = [defaultAssumedTrack]) ∧
    (env.integrityProbe = true → env.probeOk = true → pyStrip env.probeOut = "" →
      list_subtitle_tracks env = []) ∧
    (∀ streams, env.integrityProbe = true → env.probeOk = true →
      pyStrip env.probeOut ≠ "" → env.probeParse = some streams →
      (∀ s ∈ streams, s.codec_type ≠ some "subtitle") →
      list_subtitle_tracks env = []) := by
  refine ⟨fun h1 h2 => ?_, fun h1 h2 h3 => ?_, fun streams h1 h2 h3 h4 h5 => ?_⟩
  · simp [list_subtitle_tracks, h1, h2]
  · simp [list_subtitle_tracks, tracksWithFFprobe, h1, h2, h3]
  · simp [list_subtitle_tracks, tracksWithFFprobe, h1, h2, h3, h4,
      ffprobeParseTracks_eq_nil streams h5]

/-- C2 witness: the amended theorem applied to the both-fail environment and
to the zero-subtitle-container environment. -/
theorem list_subtitle_tracks_fallback_witness :
    list_subtitle_tracks envBothFail = [defaultAssumedTrack] ∧
    list_subtitle_tracks envZeroSubs = [] :=
  ⟨(list_subtitle_tracks_fallback envBothFail).1 rfl rfl,
   (list_subtitle_tracks_fallback envZeroSubs).2.2
     [⟨some "audio", some 0, none, none, none⟩] rfl rfl (by decide) rfl
     (by decide)⟩

/-- The nested preference loop agrees with "first track matching the
earliest-ranked preferred language that has any match". -/
theorem findPreferredTrack_eq (tracks : List SubtitleTrack) :
    ∀ prefs : List String,
      findPreferredTrack tracks prefs =
        match prefs.find? (fun lang => tracks.any (langMatches lang)) with
        | some lang => tracks.find? (langMatches lang)
        | none => none
  | [] => rfl
  | lang :: rest => by
    cases hf : tracks.find? (langMatches lang) with
    | some t =>
      have hmem := List.mem_of_find?_eq_some hf
      have hp := List.find?_some hf
      have hany : tracks.any (langMatches lang) = true :=
        List.any_eq_true.mpr ⟨t, hmem, hp⟩
      simp [findPreferredTrack, List.find?_cons, hf, hany]
    | none =>
      have hany : tracks.any (langMatches lang) = false := by
        rw [List.find?_eq_none] at hf
        simp only [List.any_eq_false]
        intro t ht
        simpa using hf t ht
      simp [findPreferredTrack, List.find?_cons, hf, hany,
        findPreferredTrack_eq tracks rest]

/-- C6: `find_best_subtitle_track` implements the claimed selection rule:
the first track (in original order) whose language case-insensitively
matches the earliest-ranked preferred language having any match, else the
first track with an English-indicating title, else `tracks[0]`; `none`
exactly on an empty list; `None` preferences default to `["eng", "en"]`.
Determinism is immediate: the embedding is a pure function of its
arguments. -/
theorem find_best_subtitle_track_spec (tracks : List SubtitleTrack)
    (prefs : List String) :
    find_best_subtitle_track tracks (some prefs) = selectBestSpec tracks prefs ∧
    find_best_subtitle_track tracks none = selectBestSpec tracks ["eng", "en"] ∧
    (find_best_subtitle_track tracks (some prefs) = none ↔ tracks = []) := by
  have key : ∀ ps : List String,
      find_best_subtitle_track tracks (some ps) = selectBestSpec tracks ps := by
    intro ps
    cases tracks with
    | nil => rfl
    | cons t0 ts =>
      simp only [find_best_subtitle_track, selectBestSpec, Option.getD,
        findPreferredTrack_eq]
      cases hp : ps.find? (fun lang => (t0 :: ts).any (langMatches lang)) with
      | some lang =>
        have hany := List.find?_some hp
        obtain ⟨t, hmem, hpt⟩ := List.any_eq_true.mp hany
        cases hf : (t0 :: ts).find? (langMatches lang) with
        | some u => simp [hf]
        | none =>
          rw [List.find?_eq_none] at hf
          exact absurd hpt (by simpa using hf t hmem)
      | none => simp
  refine ⟨key prefs, key ["eng", "en"], ?_⟩
  cases tracks with
  | nil => simp [find_best_subtitle_track]
  | cons t0 ts =>
    simp only [find_best_subtitle_track]
    constructor
    · intro h
      split at h
      · exact absurd h (by simp)
      · split at h <;> simp_all
    · intro h
      exact absurd h (by simp)

/-- With all parsed streams of subtitle type (which the probe command's
`-select_streams s` guarantees for genuine ffprobe output), the ffprobe
parse loop keeps every stream. -/
theorem ffprobeParseTracks_eq_map (streams : List ProbeStream)
    (h : ∀ s ∈ streams, s.codec_type = some "subtitle") :
    ffprobeParseTracks streams = streams.enum.map fun p => probeTrackOf p.1 p.2 := by
  unfold ffprobeParseTracks
  rw [List.filterMap_eq_map_iff_forall_eq_some.mpr]
  rintro ⟨i, s⟩ ha
  obtain ⟨-, -, hidx⟩ := List.mem_enumFrom ha
  have hs : s ∈ streams := by rw [hidx]; exact List.getElem_mem _
  simp [h s hs]

/-- C7: within one listing call the `index` fields are exactly `0..N-1` in
enumeration order — on the structured-probe path under the guarantee that
the parsed document contains only subtitle streams (the command passes
`-select_streams s`), and on the heuristic-scan path unconditionally (its
regex only matches `Subtitle:` lines) — with `language` defaulting to
`"und"` and `codec` to `"unknown"` when the corresponding field is absent
(visible in the `Option.getD` defaults of the per-entry track value). -/
theorem listing_indices_dense (streams : List ProbeStream)
    (ms : List (String × String × String))
    (h : ∀ s ∈ streams, s.codec_type = some "subtitle") :
    ((ffprobeParseTracks streams).map (fun t => t.index) =
      List.range streams.length) ∧
    (∀ (i : Nat) (hi : i < streams.length),
      (ffprobeParseTracks streams)[i]? =
        some { index := i
               stream_index := streams[i].index
               language := streams[i].language.getD "und"
               codec := streams[i].codec_name.getD "unknown"
               title := streams[i].title.getD "" }) ∧
    ((ffmpegParseTracks ms).map (fun t => t.index) = List.range ms.length) ∧
    (∀ (i : Nat) (hi : i < ms.length),
      (ffmpegParseTracks ms)[i]? = some (scanTrackOf i ms[i])) := by
  refine ⟨?_, ?_, ?_, ?_⟩
  · rw [ffprobeParseTracks_eq_map streams h, List.map_map]
    exact List.enum_map_fst streams
  · intro i hi
    rw [ffprobeParseTracks_eq_map streams h]
    simp [List.getElem?_enum, List.getElem?_eq_getElem hi, probeTrackOf]
  · rw [ffmpegParseTracks, List.map_map]
    exact List.enum_map_fst ms
  · intro i hi
    rw [ffmpegParseTracks]
    simp [List.getElem?_enum, List.getElem?_eq_getElem hi]

/-- C7 witness: the dense-index theorem applied to a two-subtitle-stream
document and a two-match scan. -/
theorem listing_indices_dense_witness :
    (ffprobeParseTracks
        [⟨some "subtitle", some 2, some "eng", some "subrip", some "English"⟩,
         ⟨some "subtitle", some 3, none, none, none⟩]).map (fun t => t.index) =
      List.range 2 ∧
    (ffmpegParseTracks [("2", "eng", "subrip"), ("5", "", "ass")]).map
        (fun t => t.index) =
      List.range 2 :=
  ⟨(listing_indices_dense
      [⟨some "subtitle", some 2, some "eng", some "subrip", some "English"⟩,
       ⟨some "subtitle", some 3, none, none, none⟩]
      [("2", "eng", "subrip"), ("5", "", "ass")] (by decide)).1,
   (listing_indices_dense
      [⟨some "subtitle", some 2, some "eng", some "subrip", some "English"⟩,
       ⟨some "subtitle", some 3, none, none, none⟩]
      [("2", "eng", "subrip"), ("5", "", "ass")] (by decide)).2.2.1⟩

/-- C8: for Strategies A and B an attempt is reported successful exactly
when the tool invocation reports success AND the destination file exists
AND its size is positive; in particular a zero-byte destination file is
always reported as failure. -/
theorem extract_success_criteria (env : ExtractEnv) (v o : String) (i : Nat)
    (prefs : Option (List String)) (hA : env.integrityAuto = true)
    (hS : env.integritySimple = true) :
    ((extract_subtitle_auto env v o (some i) prefs).1 = true ↔
      ((env.run (autoCmd v o i)).ok = true ∧
       (env.run (autoCmd v o i)).outExists = true ∧
       0 < (env.run (autoCmd v o i)).outSize)) ∧
    ((extract_subtitle_simple env v o).1 = true ↔
      ((env.run (autoCmd v o 0)).ok = true ∧
       (env.run (autoCmd v o 0)).outExists = true ∧
       0 < (env.run (autoCmd v o 0)).outSize)) ∧
    ((env.run (autoCmd v o i)).outSize = 0 →
      (extract_subtitle_auto env v o (some i) prefs).1 = false) ∧
    ((env.run (autoCmd v o 0)).outSize = 0 →
      (extract_subtitle_simple env v o).1 = false) := by
  refine ⟨?_, ?_, fun h0 => ?_, fun h0 => ?_⟩ <;>
    simp [extract_subtitle_auto, extract_subtitle_simple, hA, hS, and_assoc, *]

/-- C8 witness: the criteria theorem applied in an environment whose tool
call succeeds and leaves a 3-byte file. -/
theorem extract_success_criteria_witness :
    (extract_subtitle_auto envRunW "v.mkv" "o.srt" (some 1) none).1 = true :=
  ((extract_success_criteria envRunW "v.mkv" "o.srt" 1 none rfl rfl).1).mpr
    ⟨rfl, rfl, by decide⟩

/-- C9: the command runners substitute the resolved tool path for the first
argument before executing (the result depends only on the resolved argv),
return `(true, stdout)` on zero exit and `(false, stderr)` on non-zero
exit, map a timeout to `(false, <distinguished timeout text>)` and any
other exception to a `(false, …)` result, and fail softly when no tool
could be resolved — the embeddings are total, so no call ever raises. -/
theorem run_command_contract (exec : Option Nat → List String → ProcFx)
    (p c : String) (rest cmd : List String) (timeout : Option Nat)
    (rc : Int) (out err msg : String) :
    (run_ffmpeg_command (some p) exec (c :: rest) timeout =
      run_ffmpeg_command (some p) exec (p :: rest) timeout) ∧
    (exec timeout (p :: rest) = .completed rc out err →
      run_ffmpeg_command (some p) exec (c :: rest) timeout =
        if rc = 0 then (true, out) else (false, err)) ∧
    (exec timeout (p :: rest) = .timedOut →
      run_ffmpeg_command (some p) exec (c :: rest) timeout =
        (false, "명령 실행 시간 초과")) ∧
    (exec timeout (p :: rest) = .raised msg →
      run_ffmpeg_command (some p) exec (c :: rest) timeout = (false, msg)) ∧
    (run_ffmpeg_command none exec cmd timeout =
      (false, "ffmpeg을 찾을 수 없습니다.")) ∧
    (run_ffprobe_command (some p) exec (c :: rest) timeout =
      run_ffprobe_command (some p) exec (p :: rest) timeout) ∧
    (exec timeout (p :: rest) = .completed rc out err →
      run_ffprobe_command (some p) exec (c :: rest) timeout =
        if rc = 0 then (true, out) else (false, err)) ∧
    (exec timeout (p :: rest) = .timedOut →
      run_ffprobe_command (some p) exec (c :: rest) timeout =
        (false, "명령 실행 시간 초과")) ∧
    (exec timeout (p :: rest) = .raised msg →
      run_ffprobe_command (some p) exec (c :: rest) timeout = (false, msg)) ∧
    (run_ffprobe_command none exec cmd timeout =
      (false, "ffprobe를 찾을 수 없습니다.")) := by
  refine ⟨rfl, fun h => ?_, fun h => ?_, fun h => ?_, rfl, rfl,
    fun h => ?_, fun h => ?_, fun h => ?_, rfl⟩ <;>
    simp [run_ffmpeg_command, run_ffprobe_command, h]

/-- C9 witness: the runner contract applied to a concrete zero-exit
execution oracle. -/
theorem run_command_contract_witness :
    run_ffmpeg_command (some "/opt/bin/ffmpeg")
      (fun _ _ => ProcFx.completed 0 "combined output" "")
      ["ffmpeg", "-version"] (some 5) = (true, "combined output") := by
  have h := (run_command_contract
    (fun _ _ => ProcFx.completed 0 "combined output" "")
    "/opt/bin/ffmpeg" "ffmpeg" ["-version"] [] (some 5) 0 "combined output" ""
    "").2.1 rfl
  simpa using h

/-- C1: the claim says a provided `trackIndex` is used verbatim in the
Strategy-A tool invocation, and on failure Strategies B and C are still
attempted before a failure outcome is returned.  The code's condition
`if track_index is not None or extract_subtitle_auto(...)`
(src/subtitle_utils.py:199) short-circuits instead: for EVERY environment —
including one where every tool invocation fails — a provided index makes
`extract_subtitle` report success immediately with an empty action trace
(no extraction invocation, no Strategy B, no Strategy C).  This
contradicts the function's own contract (its docstring returns extraction
success, and `extract_all_subtitles` collects the destination path as an
extracted file on this `True`), so the code, not the claim, is wrong. -/
theorem extract_subtitle_ignores_given_index (env : ExtractEnv)
    (v o : String) (prefs : Option (List String)) (i : Nat) :
    extract_subtitle env v o (some i) prefs = (true, []) := rfl

/-- C5 counterexample: in `envForceCE` the extracted content
`"1 00:00:01,000"` contains no ` --> HH:MM:SS,mmm` continuation, so it does
NOT match the claim's full timestamp-range pattern — yet Strategy C accepts
the stream and reports success, because the code's sniff regex
(src/subtitle_utils.py:359) is only `\d+\s+\d{2}:\d{2}:\d{2},\d{3}`, with
no arrow or second timestamp. -/
theorem force_scan_counterexample :
    searchTimestampRangeSpec
        ((envForceCE.run (forceCmd "v.mkv" "o.srt" "0")).content.toList.take 200) =
      false ∧
    extract_subtitle_force envForceCE "v.mkv" "o.srt" =
      (true, [.runTool (forceCmd "v.mkv" "o.srt" "0")]) :=
  ⟨by decide, by decide⟩

/-- The brute-force per-stream loop, characterized by spec-side list
combinators: its boolean is "some stream passes both checks", its trace the
per-stream actions of the prefix up to and including the first passing
stream. -/
theorem forceLoop_eq (env : ExtractEnv) (v o : String) :
    ∀ l : List String,
      forceLoop env v o l =
        ((l.any fun s => forcePassesGeneric env s v o &&
            forcePassesContent env s v o),
         (untilFirstPass env v o l).flatMap (forceActionsOf env v o))
  | [] => rfl
  | s :: rest => by
    simp only [forceLoop, untilFirstPass, List.any_cons]
    by_cases hg : forcePassesGeneric env s v o
    · by_cases hc : forcePassesContent env s v o
      · simp [hg, hc, forceActionsOf]
      · simp [hg, hc, forceActionsOf, forceLoop_eq env v o rest]
    · simp [hg, forceActionsOf, forceLoop_eq env v o rest]

/-- C5 amended: Strategy C gathers all stream indices matching
`Stream #<n>:<streamIndex>` regardless of codec type and tries each in the
ORDER IT APPEARS in the probe output (ascending for well-formed ffmpeg
dumps); an attempt wins iff it meets the generic success criteria AND the
first ~200 bytes contain a match of `\d+\s+\d{2}:\d{2}:\d{2},\d{3}` — a
bare index-plus-single-timestamp, NOT the full
`… --> HH:MM:SS,mmm` range the claim states; when only the content check
fails the output file is deleted before the next stream is tried; the
first stream passing both checks wins and no further stream is tried. -/
theorem force_scan_characterization (env : ExtractEnv) (v o : String) :
    extract_subtitle_force env v o =
      if env.integrityForce = false then (false, [])
      else
        ((findallStreams env.forceStderr.toList).any
          (fun s => forcePassesGeneric env s v o && forcePassesContent env s v o),
         (untilFirstPass env v o (findallStreams env.forceStderr.toList)).flatMap
          (forceActionsOf env v o)) := by
  have hb : ∀ L : List String,
      (if L.isEmpty = true then ((false : Bool), ([] : List Action))
       else forceLoop env v o L) =
        ((L.any fun s => forcePassesGeneric env s v o &&
            forcePassesContent env s v o),
         (untilFirstPass env v o L).flatMap (forceActionsOf env v o)) := by
    intro L
    cases L with
    | nil => simp [untilFirstPass]
    | cons a as => simp [forceLoop_eq]
  simp only [extract_subtitle_force]
  by_cases hi : env.integrityForce
  · rw [if_neg (by simp [hi]), hb, if_neg (by simp [hi])]
  · rw [if_pos (by simp [hi]), if_pos (by simp [hi])]

/-- Exhaustive description of the outcomes of `get_ffmpeg_executable`:
either the verified cache is returned unchanged, or (cache path absent or
unverified) the search body produced one of its four outcomes. -/
theorem get_ffmpeg_executable_cases (env : FFEnv) (st : FFState) :
    (∃ p, st.ffmpegCache = some p ∧ st.verified = true ∧
      get_ffmpeg_executable env st = (some p, st)) ∨
    ((st.ffmpegCache = none ∨ st.verified = false) ∧
      (get_ffmpeg_executable env st = (none, st) ∨
       (∃ p, get_ffmpeg_executable env st =
         (some p, { st with ffmpegCache := some p, verified := true })) ∨
       (∃ d, get_ffmpeg_executable env st =
         (some ⟨d, env.ffmpegName⟩,
          ⟨some ⟨d, env.ffmpegName⟩, some ⟨d, env.ffprobeName⟩, true⟩)) ∨
       get_ffmpeg_executable env st = (none, { st with ffmpegCache := none }))) := by
  have hsearch :
      get_ffmpeg_search env st = (none, st) ∨
      (∃ p, get_ffmpeg_search env st =
        (some p, { st with ffmpegCache := some p, verified := true })) ∨
      (∃ d, get_ffmpeg_search env st =
        (some ⟨d, env.ffmpegName⟩,
         ⟨some ⟨d, env.ffmpegName⟩, some ⟨d, env.ffprobeName⟩, true⟩)) ∨
      get_ffmpeg_search env st = (none, { st with ffmpegCache := none }) := by
    unfold get_ffmpeg_search download_ffmpeg
    by_cases hr : env.searchRaises
    · exact Or.inl (by simp [hr])
    · rcases hf : env.findFFmpeg with _ | p0
      · rcases hd : env.downloadDir with _ | d
        · exact Or.inr (Or.inr (Or.inr (by simp [hr, hf, hd])))
        · exact Or.inr (Or.inr (Or.inl ⟨d, by simp [hr, hf, hd]⟩))
      · exact Or.inr (Or.inl ⟨p0, by simp [hr, hf]⟩)
  unfold get_ffmpeg_executable
  cases hc : st.ffmpegCache with
  | some p =>
    by_cases hv : st.verified
    · exact Or.inl ⟨p, rfl, hv, by simp [hv]⟩
    · exact Or.inr ⟨Or.inr (by simpa using hv), by simpa [hv] using hsearch⟩
  | none => exact Or.inr ⟨Or.inl rfl, hsearch⟩

/-- When ffmpeg resolution returns a path, that path is cached and the
verification flag is set afterwards. -/
theorem get_ffmpeg_some (env : FFEnv) (st : FFState) (p : FPath)
    (h : (get_ffmpeg_executable env st).1 = some p) :
    (get_ffmpeg_executable env st).2.ffmpegCache = some p ∧
    (get_ffmpeg_executable env st).2.verified = true := by
  rcases get_ffmpeg_executable_cases env st with
    ⟨q, hc, hv, he⟩ | ⟨-, he | ⟨q, he⟩ | ⟨d, he⟩ | he⟩ <;>
    rw [he] at h ⊢ <;> simp_all

/-- The cache fast path of ffmpeg resolution. -/
theorem get_ffmpeg_fast (env : FFEnv) (st : FFState) (p : FPath)
    (h1 : st.ffmpegCache = some p) (h2 : st.verified = true) :
    get_ffmpeg_executable env st = (some p, st) := by
  simp [get_ffmpeg_executable, h1, h2]

/-- ffmpeg resolution preserves the cache invariant. -/
theorem get_ffmpeg_inv (env : FFEnv) (st : FFState) (h : FFInv st) :
    FFInv (get_ffmpeg_executable env st).2 := by
  rcases get_ffmpeg_executable_cases env st with
    ⟨q, hc, hv, he⟩ | ⟨hnv, hrest⟩
  · rw [he]; exact h
  · have hp : st.ffprobeCache = none := by
      cases hpc : st.ffprobeCache with
      | none => rfl
      | some q2 =>
        obtain ⟨hv2, p2, hp2, -⟩ := h q2 hpc
        rcases hnv with hcn | hvf
        · rw [hcn] at hp2; cases hp2
        · rw [hv2] at hvf; cases hvf
    rcases hrest with he | ⟨q, he⟩ | ⟨d, he⟩ | he <;> rw [he] <;> intro q2 hq2
    · exact h q2 hq2
    · simp only at hq2
      rw [hp] at hq2
      cases hq2
    · simp only at hq2
      cases hq2
      exact ⟨rfl, ⟨d, env.ffmpegName⟩, rfl, rfl⟩
    · simp only at hq2
      rw [hp] at hq2
      cases hq2

/-- The download-retry tail keeps the invariant and only ever returns an
ffprobe path adjacent to the cached, verified ffmpeg path. -/
theorem get_ffprobe_retry_spec (envB : FFEnv) (st1 : FFState) (nb : Bool)
    (hinv : FFInv st1) :
    FFInv (get_ffprobe_retry envB st1 nb).2 ∧
    ∀ q, (get_ffprobe_retry envB st1 nb).1 = some q →
      ∃ p, (get_ffprobe_retry envB st1 nb).2.ffmpegCache = some p ∧
        p.dir = q.dir ∧ (get_ffprobe_retry envB st1 nb).2.verified = true := by
  unfold get_ffprobe_retry
  cases hpc : st1.ffprobeCache with
  | some q0 =>
    dsimp only []
    refine ⟨hinv, fun q hq => ?_⟩
    replace hq : some q0 = some q := hq
    cases hq
    obtain ⟨hv, p, hp, hdir⟩ := hinv q0 hpc
    exact ⟨p, hp, hdir, hv⟩
  | none =>
    dsimp only []
    have hinv2 : FFInv (download_ffmpeg envB st1).2 := by
      rcases hd : envB.downloadDir with _ | d
      · simpa [download_ffmpeg, hd] using hinv
      · simp only [download_ffmpeg, hd]
        intro q hq
        simp only [Option.some.injEq] at hq
        subst hq
        exact ⟨rfl, ⟨d, envB.ffmpegName⟩, rfl, rfl⟩
    have hinv3 : FFInv (get_ffmpeg_executable envB (download_ffmpeg envB st1).2).2 :=
      get_ffmpeg_inv envB _ hinv2
    cases hr2 : (get_ffmpeg_executable envB (download_ffmpeg envB st1).2).1 with
    | some p2 =>
      dsimp only []
      obtain ⟨hc3, hv3⟩ := get_ffmpeg_some envB _ p2 hr2
      cases nb with
      | true =>
        rw [if_pos rfl]
        by_cases hok : envB.probeOk ⟨p2.dir, envB.ffprobeName⟩
        · rw [if_pos hok]
          constructor
          · intro q hq
            replace hq : some (⟨p2.dir, envB.ffprobeName⟩ : FPath) = some q := hq
            cases hq
            exact ⟨hv3, p2, hc3, rfl⟩
          · intro q hq
            replace hq : some (⟨p2.dir, envB.ffprobeName⟩ : FPath) = some q := hq
            cases hq
            exact ⟨p2, hc3, rfl, hv3⟩
        · rw [if_neg hok]
          refine ⟨hinv3, fun q hq => ?_⟩
          obtain ⟨hv, p, hp, hdir⟩ := hinv3 q hq
          exact ⟨p, hp, hdir, hv⟩
      | false =>
        rw [if_neg (by simp)]
        exact ⟨hinv3, fun q hq => by cases hq⟩
    | none =>
      dsimp only []
      refine ⟨hinv3, fun q hq => ?_⟩
      obtain ⟨hv, p, hp, hdir⟩ := hinv3 q hq
      exact ⟨p, hp, hdir, hv⟩

/-- The ffprobe search body keeps the invariant and only ever returns a
path adjacent to the cached, verified ffmpeg path. -/
theorem get_ffprobe_search_spec (envA envB : FFEnv) (st : FFState)
    (hinv : FFInv st) :
    FFInv (get_ffprobe_search envA envB st).2 ∧
    ∀ q, (get_ffprobe_search envA envB st).1 = some q →
      ∃ p, (get_ffprobe_search envA envB st).2.ffmpegCache = some p ∧
        p.dir = q.dir ∧ (get_ffprobe_search envA envB st).2.verified = true := by
  unfold get_ffprobe_search
  have hinv1 : FFInv (get_ffmpeg_executable envA st).2 :=
    get_ffmpeg_inv envA st hinv
  cases hr1 : (get_ffmpeg_executable envA st).1 with
  | some p =>
    dsimp only []
    obtain ⟨hc1, hv1⟩ := get_ffmpeg_some envA st p hr1
    by_cases hok : envA.probeOk ⟨p.dir, envA.ffprobeName⟩
    · rw [if_pos hok]
      constructor
      · intro q hq
        replace hq : some (⟨p.dir, envA.ffprobeName⟩ : FPath) = some q := hq
        cases hq
        exact ⟨hv1, p, hc1, rfl⟩
      · intro q hq
        replace hq : some (⟨p.dir, envA.ffprobeName⟩ : FPath) = some q := hq
        cases hq
        exact ⟨p, hc1, rfl, hv1⟩
    · rw [if_neg hok]
      exact get_ffprobe_retry_spec envB _ true hinv1
  | none =>
    dsimp only []
    exact get_ffprobe_retry_spec envB _ false hinv1

/-- C10: starting from any state satisfying the cache invariant (which the
initial all-empty cache state does), whenever ffprobe resolution returns a
non-`None` path `q`, the resulting state caches a verified ffmpeg path `p`
lying in the same directory as `q`, and any subsequent ffmpeg resolution
returns exactly that `p` from the cache — so ffprobe is only ever found
adjacent to the resolved ffmpeg binary (or placed there by the downloader),
never independently from the system PATH; moreover the invariant is
preserved, and the cached ffprobe path is reused whenever the shared
verification flag set by ffmpeg resolution is up. -/
theorem ffprobe_resolution_adjacent (envA envB : FFEnv) (st : FFState)
    (hinv : FFInv st) :
    FFInv (get_ffprobe_executable envA envB st).2 ∧
    (∀ q, (get_ffprobe_executable envA envB st).1 = some q →
      ∃ p, (get_ffprobe_executable envA envB st).2.ffmpegCache = some p ∧
        p.dir = q.dir ∧
        ∀ envC, get_ffmpeg_executable envC (get_ffprobe_executable envA envB st).2 =
          (some p, (get_ffprobe_executable envA envB st).2)) ∧
    (∀ q, st.ffprobeCache = some q → st.verified = true →
      (get_ffprobe_executable envA envB st).1 = some q) := by
  have main : FFInv (get_ffprobe_executable envA envB st).2 ∧
      ∀ q, (get_ffprobe_executable envA envB st).1 = some q →
        ∃ p, (get_ffprobe_executable envA envB st).2.ffmpegCache = some p ∧
          p.dir = q.dir ∧
          (get_ffprobe_executable envA envB st).2.verified = true := by
    unfold get_ffprobe_executable
    cases hpc : st.ffprobeCache with
    | some q0 =>
      dsimp only []
      by_cases hv : st.verified
      · rw [if_pos hv]
        refine ⟨hinv, fun q hq => ?_⟩
        replace hq : some q0 = some q := hq
        cases hq
        obtain ⟨-, p, hp, hdir⟩ := hinv q0 hpc
        exact ⟨p, hp, hdir, hv⟩
      · exact absurd (hinv q0 hpc).1 hv
    | none =>
      dsimp only []
      exact get_ffprobe_search_spec envA envB st hinv
  refine ⟨main.1, fun q hq => ?_, fun q hq hv => ?_⟩
  · obtain ⟨p, hp, hdir, hvf⟩ := main.2 q hq
    exact ⟨p, hp, hdir, fun envC => get_ffmpeg_fast envC _ p hp hvf⟩
  · simp [get_ffprobe_executable, hq, hv]

/-- C10 witness: the adjacency theorem applied to the empty initial state
with a concrete environment resolving ffmpeg at `/opt/bin/ffmpeg`. -/
theorem ffprobe_resolution_adjacent_witness :
    ∃ p, (get_ffprobe_executable envResolveW envResolveW
            ⟨none, none, false⟩).2.ffmpegCache = some p ∧
      p.dir = FPath.dir ⟨"/opt/bin", "ffprobe"⟩ ∧
      ∀ envC, get_ffmpeg_executable envC
          (get_ffprobe_executable envResolveW envResolveW
            ⟨none, none, false⟩).2 =
        (some p, (get_ffprobe_executable envResolveW envResolveW
            ⟨none, none, false⟩).2) :=
  (ffprobe_resolution_adjacent envResolveW envResolveW ⟨none, none, false⟩
    (fun q hq => by cases hq)).2.1 ⟨"/opt/bin", "ffprobe"⟩ rfl

end BatchSubs
